import Mathlib

/-!
Verification of `tools/datasets/csvutil.py`, a CSV dataset-curation
pipeline.  Python functions are shallowly embedded as Lean functions;
fallible Python code (assertions, KeyError, IndexError, attribute errors)
is embedded in the `Py` monad, where `Except.error ()` stands for an
uncaught Python exception aborting the run.  Library collaborators that
are pure data plumbing (file reading, globbing, `cv2` decoding,
`os.path.exists`, `os.path.relpath`, the language detector, the sort
algorithm inside `DataFrame.sort_values`) are passed in as explicit
oracle parameters; everything else is translated from the source.
-/

namespace Csvutil

/-- Result of running a piece of Python code: either a value or an
uncaught exception. -/
abbrev Py (α : Type) := Except Unit α

/-- A Python `assert` statement: raises `AssertionError` when false. -/
def pyAssert (b : Bool) : Py Unit := if b then .ok () else .error ()

/-- The characters Python `str.strip()` removes by default. -/
def pySpace (c : Char) : Bool :=
  c = ' ' || c = '\t' || c = '\n' || c = '\x0d' || c = '\x0b' || c = '\x0c'

/-- Python `str.strip()` on a list of characters: drop the leading and
trailing whitespace. -/
def pyStrip (l : List Char) : List Char :=
  ((l.dropWhile pySpace).reverse.dropWhile pySpace).reverse

/-- Capitalisation step of `remove_caption_prefix`: uppercase the first
character when it is a lowercase letter (`caption[0].islower()`). -/
def pyCapitalize : List Char → List Char
  | [] => []
  | c :: cs => if c.isLower then c.toUpper :: cs else c :: cs

/-- The fixed ordered list of boilerplate caption prefixes
(`LLAVA_PREFIX` in the source, duplicates included). -/
def LLAVA_PREFIX : List String :=
  ["The video shows",
   "The video captures",
   "The video features",
   "The video depicts",
   "The video presents",
   "The video features",
   "The video is ",
   "In the video,",
   "The image shows",
   "The image captures",
   "The image features",
   "The image depicts",
   "The image presents",
   "The image features",
   "The image is ",
   "The image portrays",
   "In the image,"]

/-- The loop of `remove_caption_prefix`: try each prefix in list order;
on the first match, strip it, `strip()` whitespace, and index
`caption[0]` (an `IndexError`, i.e. `.error`, when the stripped remainder
is empty) to capitalise; falling off the loop returns Python `None`. -/
def rcpGo : List String → List Char → Py (Option (List Char))
  | [], _ => .ok none
  | p :: ps, caption =>
    if p.data.isPrefixOf caption then
      let stripped := pyStrip (caption.drop p.data.length)
      if stripped.isEmpty then .error ()
      else .ok (some (pyCapitalize stripped))
    else rcpGo ps caption

/-- `remove_caption_prefix(caption)` from the source: strip the first
matching boilerplate prefix, trim whitespace, capitalise the first
character; returns `none` (Python `None`) when no prefix matches and
raises (`.error`) when the stripped remainder is empty. -/
def remove_caption_prefix (caption : String) : Py (Option String) :=
  match rcpGo LLAVA_PREFIX caption.data with
  | .ok (some l) => .ok (some (String.mk l))
  | .ok none => .ok none
  | .error e => .error e

/-- Applying `remove_caption_prefix` to the result of a previous
application: a `some` result is fed back in; a `None` result makes the
second call raise (`None.startswith` is an `AttributeError`). -/
def rcpAgain (r : Py (Option String)) : Py (Option String) :=
  r >>= fun o =>
    match o with
    | some s => remove_caption_prefix s
    | none => .error ()

/-- Modelled from the spec: Python `html.unescape` (standard-library
code, not part of this repository) decodes HTML character references in
the caption text.  A representative set of named references is decoded;
characters that start no reference are copied unchanged. -/
def unescapeChars : List Char → List Char
  | [] => []
  | c :: rest =>
    if c = '&' then
      match rest with
      | 'a' :: 'm' :: 'p' :: ';' :: rest2 => '&' :: unescapeChars rest2
      | 'l' :: 't' :: ';' :: rest2 => '<' :: unescapeChars rest2
      | 'g' :: 't' :: ';' :: rest2 => '>' :: unescapeChars rest2
      | 'q' :: 'u' :: 'o' :: 't' :: ';' :: rest2 => '"' :: unescapeChars rest2
      | other => '&' :: unescapeChars other
    else c :: unescapeChars rest

/-- Modelled from the spec: `html.unescape` on strings. -/
def unescape (s : String) : String := String.mk (unescapeChars s.data)

/-- One row of the manifest table.  Missing values (pandas `NaN`) are
`none`; the numeric score columns are rationals. -/
structure CsvRow where
  path : String
  text : Option String
  num_frames : Option ℚ
  height : Option ℚ
  width : Option ℚ
  aspect_ratio : Option ℚ
  fps : Option ℚ
  aes : Option ℚ
  «match» : Option ℚ
deriving DecidableEq

/-- The in-memory dataset: the column list (for `data.columns`
membership tests) and the ordered rows. -/
structure DataFrame where
  cols : List String
  rows : List CsvRow
deriving DecidableEq

/-- Value of a named numeric column in a row (the columns the tool
filters and sorts by). -/
def getCol (key : String) (r : CsvRow) : Option ℚ :=
  if key = "num_frames" then r.num_frames
  else if key = "height" then r.height
  else if key = "width" then r.width
  else if key = "aspect_ratio" then r.aspect_ratio
  else if key = "fps" then r.fps
  else if key = "aes" then r.aes
  else if key = "match" then r.«match»
  else none

/-- Comparison used by the sort stage on a key column: ascending or
descending on present values, missing values last (pandas
`na_position` default). -/
def keyLe (key : String) (asc : Bool) (a b : CsvRow) : Bool :=
  match getCol key a, getCol key b with
  | some x, some y => if asc then decide (x ≤ y) else decide (y ≤ x)
  | some _, none => true
  | none, some _ => false
  | none, none => true

/-- `data[~data["path"].isin(data_diff["path"])]`: keep the rows whose
path does not occur in the reference path column. -/
def make_difference (rows : List CsvRow) (refPaths : List String) : List CsvRow :=
  rows.filter (fun r => !(refPaths.contains r.path))

/-- `data[data["path"].isin(data_int["path"])]`: keep the rows whose
path occurs in the reference path column. -/
def make_intersection (rows : List CsvRow) (refPaths : List String) : List CsvRow :=
  rows.filter (fun r => refPaths.contains r.path)

/-- `os.path.splitext(path)[1]`: the extension of the final path
component, i.e. the suffix from its last dot, provided some character
strictly between the basename start and that dot is not itself a dot. -/
def splitext_ext (path : String) : String :=
  let r := path.data.reverse
  let tail := r.takeWhile (fun c => !(c = '.') && !(c = '/'))
  match r.drop tail.length with
  | '.' :: pre =>
    if (pre.takeWhile (fun c => !(c = '/'))).any (fun c => !(c = '.')) then
      String.mk ('.' :: tail.reverse)
    else ""
  | _ => ""

/-- Python `str.lower()` (ASCII model). -/
def pyLower (s : String) : String := String.mk (s.data.map Char.toLower)

/-- The fixed set of still-image extensions (`IMG_EXTENSIONS`). -/
def IMG_EXTENSIONS : List String :=
  [".jpg", ".jpeg", ".png", ".ppm", ".bmp", ".pgm", ".tif", ".tiff", ".webp"]

/-- `get_video_info(path)` from the source.  `imread` is the `cv2.imread`
oracle (`none` = decode failure, otherwise the image height and width);
`videoMeta` is the `cv2.VideoCapture` metadata oracle (frame count,
height, width, fps).  Returns
`(num_frames, height, width, aspect_ratio, fps)` with `none` for `NaN`;
the aspect ratio is `height / width` when the width is positive. -/
def get_video_info (imread : String → Option (Int × Int))
    (videoMeta : String → Int × Int × Int × ℚ) (path : String) :
    Int × Int × Int × Option ℚ × Option ℚ :=
  let ext := pyLower (splitext_ext path)
  if IMG_EXTENSIONS.contains ext then
    match imread path with
    | none => (0, 0, 0, none, none)
    | some (height, width) =>
      (1, height, width,
       if 0 < width then some ((height : ℚ) / (width : ℚ)) else none, none)
  else
    match videoMeta path with
    | (num_frames, height, width, fps) =>
      (num_frames, height, width,
       if 0 < width then some ((height : ℚ) / (width : ℚ)) else none, some fps)

/-- `os.path.dirname`: everything before the final path component,
without its trailing slashes unless the result would be empty. -/
def pyDirname (s : String) : String :=
  let r := s.data.reverse
  let t := r.dropWhile (fun c => !(c = '/'))
  if t.isEmpty then ""
  else
    let t2 := t.dropWhile (fun c => c = '/')
    if t2.isEmpty then String.mk t.reverse else String.mk t2.reverse

/-- `os.path.join(a, b)` for one relative component. -/
def pyJoin (a b : String) : String :=
  if b.data.head? = some '/' then b
  else if a = "" then b
  else if a.data.getLast? = some '/' then a ++ b
  else a ++ "/" ++ b

/-- `os.path.basename(f).split(".")[0]`: the final path component up to
its first dot (used for reference-file name suffixes). -/
def stemOf (s : String) : String :=
  String.mk
    (((s.data.reverse.takeWhile (fun c => !(c = '/'))).reverse).takeWhile
      (fun c => !(c = '.')))

/-- Whether the caption contains a match of the URL pattern
`https?://[^\s]+`: some suffix starts with `http://` or `https://`
followed by at least one non-whitespace character. -/
def urlStart (l : List Char) : Bool :=
  (['h', 't', 't', 'p', ':', '/', '/'].isPrefixOf l &&
    (match l.drop 7 with | c :: _ => !(pySpace c) | [] => false)) ||
  (['h', 't', 't', 'p', 's', ':', '/', '/'].isPrefixOf l &&
    (match l.drop 8 with | c :: _ => !(pySpace c) | [] => false))

/-- `data["text"].str.contains(r"https?://[^\s]+", regex=True)`. -/
def containsUrl (s : String) : Bool := s.data.tails.any urlStart

/-- One row of the `--remove-caption-prefix` processing stage:
`data["text"] = apply(data["text"], remove_caption_prefix)`.  A missing
caption raises (the source hits `breakpoint()` and then fails on
`float.startswith`); otherwise the text column receives the transform's
result, which is `none` for a caption matching no prefix. -/
def rcpRow (r : CsvRow) : Py CsvRow :=
  match r.text with
  | none => .error ()
  | some s => ( remove_caption_prefix s).map (fun o => {r with text := o})

/-- Insertion into a sorted list, keeping existing order on ties. -/
def insertBy {α : Type} (le : α → α → Bool) (a : α) : List α → List α
  | [] => [a]
  | b :: bs => if le a b then a :: b :: bs else b :: insertBy le a bs

/-- A concrete comparison sort, used to instantiate the sort-algorithm
oracle of the driver in closed theorems. -/
def insertionSortBy {α : Type} (le : α → α → Bool) : List α → List α
  | [] => []
  | a :: as => insertBy le a (insertionSortBy le as)

/-- Sizes of the `n` sections of `np.array_split` on `len` elements:
`len % n` sections of size `len / n + 1` followed by sections of size
`len / n`. -/
def splitSizes (len n : Nat) : List Nat :=
  (List.range n).map (fun i => len / n + if i < len % n then 1 else 0)

/-- Cut a list into consecutive chunks of the given sizes. -/
def chunksOf {α : Type} : List Nat → List α → List (List α)
  | [], _ => []
  | s :: ss, xs => xs.take s :: chunksOf ss (xs.drop s)

/-- `np.array_split(xs, n)`: split into `n` contiguous sections whose
sizes are `splitSizes`. -/
def array_split {α : Type} (xs : List α) (n : Nat) : List (List α) :=
  chunksOf (splitSizes xs.length n) xs

/-- Python `str.replace(pat, rep)`: replace every (leftmost,
non-overlapping) occurrence of a nonempty pattern. -/
def replaceAll (pat rep : List Char) : List Char → List Char
  | [] => []
  | c :: rest =>
    if pat.isPrefixOf (c :: rest) && !pat.isEmpty then
      rep ++ replaceAll pat rep (rest.drop (pat.length - 1))
    else c :: replaceAll pat rep rest
termination_by l => l.length
decreasing_by
  · simp only [List.length_cons, List.length_drop]
    omega
  · simp only [List.length_cons]
    omega

/-- `output_path.replace(".csv", f"_{i}.csv")` on strings. -/
def strReplace (s pat rep : String) : String :=
  String.mk (replaceAll pat.data rep.data s.data)

/-- Add a column name if not already present (pandas column
assignment). -/
def addCol (cols : List String) (c : String) : List String :=
  if cols.contains c then cols else cols ++ [c]

/-- The five columns created by the `--info` stage. -/
def addInfoCols (cols : List String) : List String :=
  ["num_frames", "height", "width", "aspect_ratio", "fps"].foldl addCol cols

/-- The command-line flags of `parse_args` (`input` is the positional
pattern list; reference files carry their name and their `path`
column). -/
structure Args where
  input : List String
  output : Option String := none
  shard : Option Nat := none
  sort_descending : Option String := none
  sort_ascending : Option String := none
  difference : Option (String × List String) := none
  intersection : Option (String × List String) := none
  relpath : Option String := none
  abspath : Option String := none
  ext : Bool := false
  remove_empty_caption : Bool := false
  lang : Option String := none
  remove_url : Bool := false
  remove_caption_prefix : Bool := false
  unescape : Bool := false
  info : Bool := false
  fmin : Option Int := none
  fmax : Option Int := none
  aesmin : Option ℚ := none
  matchmin : Option ℚ := none

/-- `get_output_path(args, input_name)` from the source: an explicit
`--output` is returned at once; otherwise the output name is synthesised
from the input name plus one suffix token per enabled option, and the
mutual-exclusion assertions on the two sort flags are checked only on
this synthesised branch. -/
def get_output_path (args : Args) (input_name : String) : Py String := do
  match args.output with
  | some o => return o
  | none =>
    match args.input with
    | [] => .error ()
    | i0 :: _ =>
      let dir_path := pyDirname i0
      let name := input_name
      let name := if args.relpath.isSome then name ++ "_relpath" else name
      let name := if args.abspath.isSome then name ++ "_abspath" else name
      let name := if args.ext then name ++ "_ext" else name
      let name := if args.remove_empty_caption then name ++ "_noempty" else name
      let name := match args.lang with | some l => name ++ "_" ++ l | none => name
      let name := if args.remove_url then name ++ "_nourl" else name
      let name := if args.remove_caption_prefix then name ++ "_rcp" else name
      let name := if args.unescape then name ++ "_unescape" else name
      let name := if args.info then name ++ "_info" else name
      let name := match args.fmin with
        | some n => name ++ "_fmin" ++ toString n | none => name
      let name := match args.fmax with
        | some n => name ++ "_fmax" ++ toString n | none => name
      let name := match args.aesmin with
        | some q => name ++ "_aesmin" ++ toString q | none => name
      let name := match args.matchmin with
        | some q => name ++ "_matchmin" ++ toString q | none => name
      let name ← if args.sort_descending.isSome then do
          pyAssert args.sort_ascending.isNone
          pure (name ++ "_sort")
        else pure name
      let name ← if args.sort_ascending.isSome then do
          pyAssert args.sort_descending.isNone
          pure (name ++ "_sort")
        else pure name
      return pyJoin dir_path (name ++ ".csv")

/-- `main(args)` from the source, from the point where the input files
have been read and concatenated (`data0`, with `input_name0` accumulated
from the input basenames).  Oracles: `pathExists` (`os.path.exists`),
`detectLang` (the language filter predicate), `relpathFn`
(`os.path.relpath`), `imread` and `videoMeta` (`cv2`), and `sortImpl`
(the sort algorithm library call used by `DataFrame.sort_values`; its
ordering among equal keys is left to the oracle).  The result is the
list of written output files with their rows, or `.error` when the run
aborts with an exception before writing. -/
def mainModel (args : Args) (data0 : DataFrame) (input_name0 : String)
    (pathExists detectLang : String → Bool)
    (relpathFn : String → String → String)
    (imread : String → Option (Int × Int))
    (videoMeta : String → Int × Int × Int × ℚ)
    (sortImpl : (CsvRow → CsvRow → Bool) → List CsvRow → List CsvRow) :
    Py (List (String × List CsvRow)) := do
  let mut data := data0
  let mut input_name := input_name0
  -- make difference
  match args.difference with
  | some (fname, refPaths) =>
    pyAssert (data.cols.contains "path")  -- KeyError on a missing column
    data := { data with rows := make_difference data.rows refPaths }
    input_name := input_name ++ "-" ++ stemOf fname
  | none => pure ()
  -- make intersection
  match args.intersection with
  | some (fname, refPaths) =>
    pyAssert (data.cols.contains "path")
    data := { data with rows := make_intersection data.rows refPaths }
    input_name := input_name ++ "-" ++ stemOf fname
  | none => pure ()
  -- get output path
  let output_path ← get_output_path args input_name
  -- preparation: build_lang_detector asserts the language is supported
  match args.lang with
  | some l => pyAssert (l = "en")
  | none => pure ()
  -- filtering
  if args.ext then
    pyAssert (data.cols.contains "path")
    data := { data with rows := data.rows.filter (fun r => pathExists r.path) }
  if args.remove_empty_caption then
    pyAssert (data.cols.contains "text")
    data := { data with rows := data.rows.filter (fun r =>
      match r.text with | some s => 0 < s.length | none => false) }
    data := { data with rows := data.rows.filter (fun r => r.text.isSome) }
  if args.remove_url then
    pyAssert (data.cols.contains "text")
    -- `.str.contains` yields NA on a missing caption; masking then raises
    pyAssert (data.rows.all (fun r => r.text.isSome))
    data := { data with rows := data.rows.filter (fun r =>
      match r.text with | some s => !(containsUrl s) | none => false) }
  match args.lang with
  | some _ =>
    pyAssert (data.cols.contains "text")
    pyAssert (data.rows.all (fun r => r.text.isSome))
    data := { data with rows := data.rows.filter (fun r =>
      match r.text with | some s => detectLang s | none => false) }
  | none => pure ()
  -- processing
  match args.relpath with
  | some base =>
    pyAssert (data.cols.contains "path")
    data := { data with rows := data.rows.map (fun r =>
      {r with path := relpathFn r.path base}) }
  | none => pure ()
  match args.abspath with
  | some base =>
    pyAssert (data.cols.contains "path")
    data := { data with rows := data.rows.map (fun r =>
      {r with path := pyJoin base r.path}) }
  | none => pure ()
  if args.remove_caption_prefix then
    pyAssert (data.cols.contains "text")
    let newRows ← data.rows.mapM rcpRow
    data := { data with rows := newRows }
  if args.unescape then
    pyAssert (data.cols.contains "text")
    let newRows ← data.rows.mapM (fun r =>
      match r.text with
      | none => (.error () : Py CsvRow)
      | some s => .ok {r with text := some (unescape s)})
    data := { data with rows := newRows }
  if args.info then
    pyAssert (data.cols.contains "path")
    data := { cols := addInfoCols data.cols,
              rows := data.rows.map (fun r =>
                match get_video_info imread videoMeta r.path with
                | (nf, h, w, ar, fps) =>
                  { r with num_frames := some (nf : ℚ), height := some (h : ℚ),
                           width := some (w : ℚ), aspect_ratio := ar, fps := fps }) }
  -- filtering on derived and score columns
  match args.fmin with
  | some n =>
    pyAssert (data.cols.contains "num_frames")
    data := { data with rows := data.rows.filter (fun r =>
      match r.num_frames with | some v => decide ((n : ℚ) ≤ v) | none => false) }
  | none => pure ()
  match args.fmax with
  | some n =>
    pyAssert (data.cols.contains "num_frames")
    data := { data with rows := data.rows.filter (fun r =>
      match r.num_frames with | some v => decide (v ≤ (n : ℚ)) | none => false) }
  | none => pure ()
  match args.aesmin with
  | some q =>
    pyAssert (data.cols.contains "aes")
    data := { data with rows := data.rows.filter (fun r =>
      match r.aes with | some v => decide (q ≤ v) | none => false) }
  | none => pure ()
  match args.matchmin with
  | some q =>
    pyAssert (data.cols.contains "match")
    data := { data with rows := data.rows.filter (fun r =>
      match r.«match» with | some v => decide (q ≤ v) | none => false) }
  | none => pure ()
  -- sort: both flags are applied in sequence when both are given
  match args.sort_descending with
  | some key =>
    pyAssert (data.cols.contains key)  -- KeyError on a missing sort column
    data := { data with rows := sortImpl (keyLe key false) data.rows }
  | none => pure ()
  match args.sort_ascending with
  | some key =>
    pyAssert (data.cols.contains key)
    data := { data with rows := sortImpl (keyLe key true) data.rows }
  | none => pure ()
  -- shard and write
  match args.shard with
  | some n =>
    let parts := array_split data.rows n
    return (List.range n).map (fun i =>
      (strReplace output_path ".csv" ("_" ++ toString i ++ ".csv"), parts.getD i []))
  | none =>
    return [(output_path, data.rows)]

/-- A row carrying only a path (test fixture). -/
def blankRow (p : String) : CsvRow :=
  { path := p, text := none, num_frames := none, height := none, width := none,
    aspect_ratio := none, fps := none, aes := none, «match» := none }

/-- A row carrying a path and an aesthetic score (test fixture). -/
def aesRow (p : String) (q : ℚ) : CsvRow :=
  { path := p, text := none, num_frames := none, height := none, width := none,
    aspect_ratio := none, fps := none, aes := some q, «match» := none }

/-- The invocation `in.csv --sort-descending aes --sort-ascending aes
--output out.csv` (test fixture). -/
def sortArgsBoth : Args :=
  { input := ["d/in.csv"], output := some "out.csv",
    sort_descending := some "aes", sort_ascending := some "aes" }

/-- A three-row dataset with an `aes` column (test fixture). -/
def sortDemoData : DataFrame :=
  { cols := ["path", "text", "aes"],
    rows := [aesRow "a" 2, aesRow "b" 1, aesRow "c" 3] }

/-! ## Helper lemmas -/

/-- Every prefix in the table is a nonempty string. -/
theorem llava_prefix_ne_nil : ∀ p ∈ LLAVA_PREFIX, p.data ≠ [] := by
  decide

/-- Dropping a prefix of matching elements never lengthens a list. -/
theorem dropWhile_length_le (p : Char → Bool) (l : List Char) :
    (l.dropWhile p).length ≤ l.length := by
  induction l with
  | nil => simp
  | cons a l ih =>
    rw [List.dropWhile_cons]
    split
    · exact le_trans ih (by simp)
    · simp

/-- Stripping never lengthens a list. -/
theorem pyStrip_length_le (l : List Char) : (pyStrip l).length ≤ l.length := by
  unfold pyStrip
  calc ((l.dropWhile pySpace).reverse.dropWhile pySpace).reverse.length
      = ((l.dropWhile pySpace).reverse.dropWhile pySpace).length := by
        simp
    _ ≤ (l.dropWhile pySpace).reverse.length := dropWhile_length_le _ _
    _ = (l.dropWhile pySpace).length := by simp
    _ ≤ l.length := dropWhile_length_le _ _

/-- Capitalisation preserves the length. -/
theorem pyCapitalize_length (l : List Char) :
    (pyCapitalize l).length = l.length := by
  cases l with
  | nil => rfl
  | cons c cs => simp only [pyCapitalize]; split <;> simp

/-- When the loop returns a caption, that caption is strictly shorter
than the input (a nonempty prefix was removed). -/
theorem rcpGo_shrinks : ∀ (ps : List String) (cap out : List Char),
    (∀ p ∈ ps, p.data ≠ []) → rcpGo ps cap = .ok (some out) →
    out.length < cap.length := by
  intro ps
  induction ps with
  | nil => intro cap out _ h; simp [rcpGo] at h
  | cons p ps ih =>
    intro cap out hne h
    by_cases hp : p.data.isPrefixOf cap
    · rw [rcpGo, if_pos hp] at h
      by_cases hemp : (pyStrip (cap.drop p.data.length)).isEmpty
      · rw [if_pos hemp] at h
        exact absurd h (by simp)
      · rw [if_neg hemp] at h
        have hout : out = pyCapitalize (pyStrip (cap.drop p.data.length)) := by
          simpa using h.symm
        have hle : (pyStrip (cap.drop p.data.length)).length
            ≤ (cap.drop p.data.length).length := pyStrip_length_le _
        have hplen : 0 < p.data.length :=
          List.length_pos.mpr (hne p (List.mem_cons_self _ _))
        have hple : p.data.length ≤ cap.length :=
          (List.isPrefixOf_iff_prefix.mp hp).length_le
        have hdrop : (cap.drop p.data.length).length
            = cap.length - p.data.length := by simp
        rw [hout, pyCapitalize_length]
        omega
    · rw [rcpGo, if_neg hp] at h
      exact ih cap out (fun q hq => hne q (List.mem_cons_of_mem _ hq)) h

/-- A returned caption is strictly shorter than the input caption. -/
theorem rcp_shrinks (x : String) (t : String)
    (h : remove_caption_prefix x = .ok (some t)) : t.length < x.length := by
  unfold remove_caption_prefix at h
  rcases hg : rcpGo LLAVA_PREFIX x.data with e | o
  · rw [hg] at h; exact absurd h (by simp)
  · rcases o with _ | l
    · rw [hg] at h; exact absurd h (by simp)
    · rw [hg] at h
      injection h with h
      injection h with h
      have hlen : t.length = l.length := by rw [← h]; rfl
      have := rcpGo_shrinks LLAVA_PREFIX x.data l llava_prefix_ne_nil hg
      have hx : x.data.length = x.length := rfl
      omega

/-- The loop returns the branch of the first prefix that `find?` locates. -/
theorem rcpGo_first_match (ps : List String) (cap : List Char) (p : String)
    (hf : ps.find? (fun q => q.data.isPrefixOf cap) = some p)
    (hne : ¬ (pyStrip (cap.drop p.data.length)).isEmpty = true) :
    rcpGo ps cap = .ok (some (pyCapitalize (pyStrip (cap.drop p.data.length)))) := by
  induction ps with
  | nil => simp [List.find?] at hf
  | cons q ps ih =>
    by_cases hq : q.data.isPrefixOf cap
    · rw [List.find?_cons_of_pos (p := fun s => s.data.isPrefixOf cap) ps hq] at hf
      have hqp : q = p := by injection hf
      subst hqp
      rw [rcpGo, if_pos hq, if_neg hne]
    · rw [List.find?_cons_of_neg (p := fun s => s.data.isPrefixOf cap) ps hq] at hf
      rw [rcpGo, if_neg hq]
      exact ih hf

/-- The loop falls through and returns `None` when no prefix matches. -/
theorem rcpGo_no_match (ps : List String) (cap : List Char)
    (h : ∀ p ∈ ps, p.data.isPrefixOf cap = false) : rcpGo ps cap = .ok none := by
  induction ps with
  | nil => rfl
  | cons q ps ih =>
    rw [rcpGo, if_neg (by simp [h q (List.mem_cons_self _ _)])]
    exact ih (fun p hp => h p (List.mem_cons_of_mem _ hp))

/-- Unescaping a list whose head is not an ampersand copies the head. -/
theorem unescapeChars_cons_ne (c : Char) (rest : List Char) (hc : ¬ c = '&') :
    unescapeChars (c :: rest) = c :: unescapeChars rest := by
  rw [unescapeChars.eq_def]
  split
  next x heq => exact absurd heq (by simp)
  next x c2 rest2 heq =>
    injection heq with h1 h2
    subst h1
    subst h2
    rw [if_neg hc]

/-- A string without an ampersand holds no character reference and is a
fixed point of unescaping. -/
theorem unescapeChars_fixed_no_amp (l : List Char) (h : '&' ∉ l) :
    unescapeChars l = l := by
  induction l with
  | nil => rfl
  | cons c rest ih =>
    have hc : ¬ (c = '&') := fun hcc => h (hcc ▸ List.mem_cons_self c rest)
    rw [unescapeChars_cons_ne c rest hc,
      ih (fun hm => h (List.mem_cons_of_mem _ hm))]

/-- Chunking yields one chunk per requested size. -/
theorem chunksOf_length {α : Type} (ss : List Nat) (xs : List α) :
    (chunksOf ss xs).length = ss.length := by
  induction ss generalizing xs with
  | nil => rfl
  | cons s ss ih => simp [chunksOf, ih]

/-- When the sizes sum to the length, concatenating the chunks restores
the list. -/
theorem chunksOf_join {α : Type} (ss : List Nat) (xs : List α)
    (h : ss.sum = xs.length) : (chunksOf ss xs).flatten = xs := by
  induction ss generalizing xs with
  | nil =>
    simp at h
    simp [chunksOf, List.length_eq_zero.mp h.symm]
  | cons s ss ih =>
    simp only [chunksOf, List.flatten_cons]
    rw [ih (xs.drop s) (by simp [List.sum_cons] at h; simp [List.length_drop]; omega)]
    exact List.take_append_drop s xs

/-- When the sizes sum to at most the length, each chunk has exactly its
requested size. -/
theorem chunksOf_map_length {α : Type} (ss : List Nat) (xs : List α)
    (h : ss.sum ≤ xs.length) : (chunksOf ss xs).map List.length = ss := by
  induction ss generalizing xs with
  | nil => rfl
  | cons s ss ih =>
    simp only [chunksOf, List.map_cons]
    have hs : s ≤ xs.length := by simp [List.sum_cons] at h; omega
    rw [List.length_take, min_eq_left hs,
      ih (xs.drop s) (by simp [List.sum_cons] at h; simp [List.length_drop]; omega)]

/-- Sum of `q + (1 when i < r)` over `range m`. -/
theorem range_sum_ite (m q r : Nat) :
    ((List.range m).map (fun i => q + if i < r then 1 else 0)).sum
      = m * q + min r m := by
  induction m with
  | zero => simp
  | succ m ih =>
    rw [List.range_succ, List.map_append, List.sum_append, ih]
    simp only [List.map_cons, List.sum_cons, List.map_nil, List.sum_nil]
    split <;> (rename_i hmr; simp [Nat.succ_mul]; omega)

/-- The `np.array_split` section sizes sum to the element count. -/
theorem splitSizes_sum (len n : Nat) (h : 0 < n) : (splitSizes len n).sum = len := by
  unfold splitSizes
  rw [range_sum_ite]
  have h1 := Nat.div_add_mod len n
  have h2 := Nat.mod_lt len h
  omega

/-- Every `np.array_split` section size is `len / n` or `len / n + 1`. -/
theorem splitSizes_mem (len n : Nat) :
    ∀ s ∈ splitSizes len n, s = len / n ∨ s = len / n + 1 := by
  intro s hs
  unfold splitSizes at hs
  simp only [List.mem_map, List.mem_range] at hs
  obtain ⟨i, _, rfl⟩ := hs
  split <;> omega

/-! ## Claims -/

/-- C2, counterexample: applying the prefix-removal transform twice does
not agree with applying it once on "The video shows a cat.": the first
application yields "A cat.", and the second application returns `None`
(no prefix matches any more), not "A cat.". -/
theorem rcp_twice_cex :
    rcpAgain ( remove_caption_prefix "The video shows a cat.")
      ≠ remove_caption_prefix "The video shows a cat." := by
  have h1 : rcpAgain ( remove_caption_prefix "The video shows a cat.")
      = .ok none := rfl
  have h2 : remove_caption_prefix "The video shows a cat."
      = .ok (some "A cat.") := rfl
  rw [h1, h2]
  intro h
  injection h with h
  exact Option.noConfusion h

/-- C2 (amended): the transform is never idempotent on a caption it
rewrites: whenever `remove_caption_prefix` returns a caption, applying it
to that result never reproduces the first result (the second application
returns `None` or a strictly shorter caption, never the same string). -/
theorem rcp_second_application_differs (c s : String)
    (h : remove_caption_prefix c = .ok (some s)) :
    remove_caption_prefix s ≠ remove_caption_prefix c := by
  rw [h]
  intro hcon
  exact absurd (rcp_shrinks s s hcon) (lt_irrefl _)

/-- C2, witness: the amended statement at "The video shows a cat.". -/
theorem rcp_second_application_differs_witness :
    remove_caption_prefix "The video shows a cat." = .ok (some "A cat.") ∧
    remove_caption_prefix "A cat." ≠ remove_caption_prefix "The video shows a cat." :=
  ⟨rfl, rcp_second_application_differs "The video shows a cat." "A cat." rfl⟩

/-- C3, counterexample: a caption that does start with a known prefix on
which the transform does not return the stripped remainder: on
"The video shows" (remainder empty after stripping) the code raises an
`IndexError` instead of returning a value. -/
theorem rcp_matching_caption_raises_cex :
    LLAVA_PREFIX.any (fun q => q.data.isPrefixOf ("The video shows").data) = true ∧
    remove_caption_prefix "The video shows" = .error () :=
  ⟨by decide, rfl⟩

/-- C3 (amended): for a caption whose first matching prefix (in list
order, case-sensitive) leaves a nonempty whitespace-trimmed remainder,
the transform strips that prefix, trims whitespace, and uppercases the
first character when lowercase. -/
theorem rcp_strips_first_matching (c p : String)
    (hf : LLAVA_PREFIX.find? (fun q => q.data.isPrefixOf c.data) = some p)
    (hne : ¬ (pyStrip (c.data.drop p.data.length)).isEmpty = true) :
    remove_caption_prefix c
      = .ok (some (String.mk (pyCapitalize (pyStrip (c.data.drop p.data.length))))) := by
  unfold remove_caption_prefix
  rw [rcpGo_first_match LLAVA_PREFIX c.data p hf hne]

/-- C3, witness: "The video shows a cat." becomes "A cat.". -/
theorem rcp_strips_first_matching_witness :
    LLAVA_PREFIX.find? (fun q => q.data.isPrefixOf ("The video shows a cat.").data)
      = some "The video shows" ∧
    remove_caption_prefix "The video shows a cat." = .ok (some "A cat.") :=
  ⟨rfl, rcp_strips_first_matching "The video shows a cat." "The video shows" rfl
    (by decide)⟩

/-- C4, counterexample: HTML unescaping is not idempotent: on the
double-escaped caption "&amp;amp;" one application yields "&amp;" and a
second application yields "&". -/
theorem unescape_not_idempotent_cex :
    unescape (unescape "&amp;amp;") ≠ unescape "&amp;amp;" := by
  have h1 : unescape "&amp;amp;" = "&amp;" := rfl
  have h2 : unescape "&amp;" = "&" := rfl
  rw [h1, h2]
  exact (by decide : "&" ≠ "&amp;")

/-- C4 (amended): unescaping is idempotent on captions whose unescaped
form contains no ampersand (hence no remaining character reference):
for those, unescaping the already-unescaped string returns it
unchanged. -/
theorem unescape_idempotent_when_clean (s : String)
    (h : '&' ∉ (unescape s).data) : unescape (unescape s) = unescape s := by
  have h' : '&' ∉ unescapeChars s.data := h
  show String.mk (unescapeChars (String.mk (unescapeChars s.data)).data)
      = String.mk (unescapeChars s.data)
  exact congrArg String.mk (unescapeChars_fixed_no_amp _ h')

/-- C4, witness: the amended statement at "&lt;hi&gt;". -/
theorem unescape_idempotent_when_clean_witness :
    '&' ∉ (unescape "&lt;hi&gt;").data ∧
    unescape (unescape "&lt;hi&gt;") = unescape "&lt;hi&gt;" :=
  ⟨by decide, unescape_idempotent_when_clean "&lt;hi&gt;" (by decide)⟩

/-- C9: a caption starting with none of the boilerplate prefixes is
mapped to Python `None` by `remove_caption_prefix`, and the
`--remove-caption-prefix` stage therefore stores a null text value for
such a row rather than leaving the caption unchanged. -/
theorem rcp_none_on_no_match :
    (∀ c : String, (∀ p ∈ LLAVA_PREFIX, p.data.isPrefixOf c.data = false) →
      remove_caption_prefix c = .ok none) ∧
    (∀ (r : CsvRow) (s : String), r.text = some s →
      (∀ p ∈ LLAVA_PREFIX, p.data.isPrefixOf s.data = false) →
      rcpRow r = .ok {r with text := none}) := by
  constructor
  · intro c h
    unfold remove_caption_prefix
    rw [rcpGo_no_match LLAVA_PREFIX c.data h]
  · intro r s hs h
    have h1 : remove_caption_prefix s = .ok none := by
      unfold remove_caption_prefix
      rw [rcpGo_no_match LLAVA_PREFIX s.data h]
    simp only [rcpRow, hs, h1, Except.map]

/-- C9, witness: at the caption "A dog runs." and a row carrying it. -/
theorem rcp_none_on_no_match_witness :
    remove_caption_prefix "A dog runs." = .ok none ∧
    rcpRow { path := "v.mp4", text := some "A dog runs.", num_frames := none,
             height := none, width := none, aspect_ratio := none, fps := none,
             aes := none, «match» := none }
      = .ok { path := "v.mp4", text := none, num_frames := none, height := none,
              width := none, aspect_ratio := none, fps := none, aes := none,
              «match» := none } :=
  ⟨rcp_none_on_no_match.1 "A dog runs." (by decide),
   rcp_none_on_no_match.2 _ "A dog runs." rfl (by decide)⟩

/-- C10: on a caption that is a known prefix followed only by whitespace
(here exactly "The video shows", and "The video shows " with a trailing
blank) the transform raises an `IndexError` on `caption[0]` instead of
returning a value: it is not total on strings. -/
theorem rcp_raises_on_whitespace_tail :
    remove_caption_prefix "The video shows " = .error () ∧
    remove_caption_prefix "The video shows" = .error () :=
  ⟨rfl, rfl⟩

/-- C1: with both `--sort-descending aes` and `--sort-ascending aes` but
an explicit `--output`, the run does NOT abort: `get_output_path`
returns the explicit output before reaching the mutual-exclusion
assertions, both sorts are applied in sequence (the ascending one last),
and the output file is written.  Only when `--output` is omitted does the
assertion in the synthesised-name branch fire and abort the run with no
file written. -/
theorem mainModel_both_sorts_behaviour :
    mainModel sortArgsBoth sortDemoData "in" (fun _ => true) (fun _ => true)
        (fun x _ => x) (fun _ => none) (fun _ => (0, 0, 0, 0)) insertionSortBy
      = .ok [("out.csv", [aesRow "b" 1, aesRow "a" 2, aesRow "c" 3])] ∧
    mainModel { sortArgsBoth with output := none } sortDemoData "in"
        (fun _ => true) (fun _ => true) (fun x _ => x) (fun _ => none)
        (fun _ => (0, 0, 0, 0)) insertionSortBy
      = .error () :=
  ⟨rfl, rfl⟩

/-- C6: on a path with a still-image extension (case-insensitive), the
probe returns `num_frames = 1`, `fps` undefined, the decoded height and
width, and `aspect_ratio = height / width` when the width is positive
(undefined otherwise); a failed decode yields the
`(0, 0, 0, nan, nan)` sentinel.  The embedding is a total function, so
no input raises. -/
theorem get_video_info_image_spec (path : String)
    (imread : String → Option (Int × Int))
    (videoMeta : String → Int × Int × Int × ℚ)
    (hext : IMG_EXTENSIONS.contains (pyLower (splitext_ext path)) = true) :
    (imread path = none →
      get_video_info imread videoMeta path = (0, 0, 0, none, none)) ∧
    (∀ h w : Int, imread path = some (h, w) →
      get_video_info imread videoMeta path
        = (1, h, w, if 0 < w then some ((h : ℚ) / (w : ℚ)) else none, none)) := by
  constructor
  · intro hnone
    simp only [get_video_info]
    rw [if_pos hext, hnone]
  · intro h w himg
    simp only [get_video_info]
    rw [if_pos hext, himg]

/-- C6, witness: a 4×2 image at "a/img.PNG". -/
theorem get_video_info_image_spec_witness :
    IMG_EXTENSIONS.contains (pyLower (splitext_ext "a/img.PNG")) = true ∧
    get_video_info (fun _ => some (4, 2)) (fun _ => (0, 0, 0, 0)) "a/img.PNG"
      = (1, 4, 2, some ((4 : ℚ) / 2), none) :=
  ⟨by decide,
   (get_video_info_image_spec "a/img.PNG" (fun _ => some (4, 2))
      (fun _ => (0, 0, 0, 0)) (by decide)).2 4 2 rfl⟩

/-- The difference and intersection filters split the rows exactly. -/
theorem filter_complement_multiset (rows : List CsvRow) (ref : List String) :
    ((make_difference rows ref : Multiset CsvRow)
      + (make_intersection rows ref : Multiset CsvRow))
      = (rows : Multiset CsvRow) := by
  induction rows with
  | nil => rfl
  | cons r rows ih =>
    by_cases hc : ref.contains r.path
    · have hd : make_difference (r :: rows) ref = make_difference rows ref := by
        simp only [make_difference, List.filter_cons, hc]
        simp
      have hi : make_intersection (r :: rows) ref
          = r :: make_intersection rows ref := by
        simp only [make_intersection, List.filter_cons, hc]
        simp
      rw [hd, hi, ← Multiset.cons_coe, Multiset.add_cons, ih, Multiset.cons_coe]
    · have hcf : ref.contains r.path = false := by
        simpa using hc
      have hd : make_difference (r :: rows) ref = r :: make_difference rows ref := by
        simp only [make_difference, List.filter_cons, hcf]
        simp
      have hi : make_intersection (r :: rows) ref = make_intersection rows ref := by
        simp only [make_intersection, List.filter_cons, hcf]
        simp
      rw [hd, hi, ← Multiset.cons_coe, Multiset.cons_add, ih, Multiset.cons_coe]

/-- C7: for any dataset and reference path column, the rows kept by the
difference stage and the rows kept by the intersection stage (membership
by string equality on `path`) are disjoint, and together they are
exactly the original rows. -/
theorem difference_intersection_complement (rows : List CsvRow) (ref : List String) :
    (∀ r, r ∈ make_difference rows ref → r ∉ make_intersection rows ref) ∧
    ((make_difference rows ref : Multiset CsvRow)
      + (make_intersection rows ref : Multiset CsvRow)
      = (rows : Multiset CsvRow)) := by
  refine ⟨?_, filter_complement_multiset rows ref⟩
  intro r hd hi
  simp only [make_difference, List.mem_filter] at hd
  simp only [make_intersection, List.mem_filter] at hi
  rw [hi.2] at hd
  simp at hd

/-- C7, witness: at a two-row dataset and the reference `["a"]`. -/
theorem difference_intersection_complement_witness :
    blankRow "b" ∉ make_intersection [blankRow "a", blankRow "b"] ["a"] ∧
    ((make_difference [blankRow "a", blankRow "b"] ["a"] : Multiset CsvRow)
      + (make_intersection [blankRow "a", blankRow "b"] ["a"] : Multiset CsvRow)
      = ([blankRow "a", blankRow "b"] : Multiset CsvRow)) :=
  ⟨(difference_intersection_complement [blankRow "a", blankRow "b"] ["a"]).1
      (blankRow "b") (by decide),
   (difference_intersection_complement [blankRow "a", blankRow "b"] ["a"]).2⟩

/-- C8: for a positive shard count `n`, `np.array_split` yields exactly
`n` contiguous sections, concatenating them in order restores the rows
exactly, and any two section sizes differ by at most 1. -/
theorem array_split_spec {α : Type} (xs : List α) (n : Nat) (h : 0 < n) :
    (array_split xs n).length = n ∧
    (array_split xs n).flatten = xs ∧
    (∀ p ∈ array_split xs n, ∀ q ∈ array_split xs n,
      p.length ≤ q.length + 1) := by
  have hsum : (splitSizes xs.length n).sum = xs.length := splitSizes_sum _ _ h
  have hlen : (array_split xs n).map List.length = splitSizes xs.length n :=
    chunksOf_map_length _ _ (le_of_eq hsum)
  refine ⟨?_, chunksOf_join _ _ hsum, ?_⟩
  · unfold array_split
    rw [chunksOf_length]
    unfold splitSizes
    simp
  · intro p hp q hq
    have hpmem : p.length ∈ splitSizes xs.length n := by
      rw [← hlen]; exact List.mem_map_of_mem _ hp
    have hqmem : q.length ∈ splitSizes xs.length n := by
      rw [← hlen]; exact List.mem_map_of_mem _ hq
    rcases splitSizes_mem _ _ _ hpmem with h1 | h1 <;>
      rcases splitSizes_mem _ _ _ hqmem with h2 | h2 <;> omega

/-- C8, witness: splitting five rows into two shards. -/
theorem array_split_spec_witness :
    0 < 2 ∧
    ((array_split [1, 2, 3, 4, 5] 2).length = 2 ∧
     (array_split [1, 2, 3, 4, 5] 2).flatten = [1, 2, 3, 4, 5] ∧
     (∀ p ∈ array_split [1, 2, 3, 4, 5] 2, ∀ q ∈ array_split [1, 2, 3, 4, 5] 2,
       p.length ≤ q.length + 1)) :=
  ⟨by decide, array_split_spec [1, 2, 3, 4, 5] 2 (by decide)⟩

end Csvutil
